import Mathlib

/-!
A shallow embedding of the invoice-reconciliation core of the
`sfguide-document-ai-invoice-reconciliation` repository: the gold-record
commit flow and metrics of `sis_enhanced_invoice_app.py`, the AI fraud
adapter of `cortex_enhanced_app.py`, and the PDF pager and validation call
of `sis_docai_validation_app.py`.  SQL tables are modelled as lists of typed
rows, money as exact rationals, timestamps as integers, and nullable SQL
columns as `Option`.
-/

/-- A bronze line-item row (`TRANSACT_ITEMS` / `DOCAI_INVOICE_ITEMS`). -/
structure ItemRow where
  invoice_id : String
  product_name : String
  quantity : Rat
  unit_price : Rat
  total_price : Rat
deriving DecidableEq, Repr

/-- A bronze totals row (`TRANSACT_TOTALS` / `DOCAI_INVOICE_TOTALS`). -/
structure TotalRow where
  invoice_id : String
  invoice_date : String
  subtotal : Rat
  tax : Rat
  total : Rat
deriving DecidableEq, Repr

/-- A `GOLD_INVOICE_ITEMS` row; `reviewed_by` / `reviewed_timestamp` are
nullable columns, hence `Option`. -/
structure GoldItemRow where
  invoice_id : String
  product_name : String
  quantity : Rat
  unit_price : Rat
  total_price : Rat
  reviewed_by : Option String
  reviewed_timestamp : Option Nat
  notes : String
deriving DecidableEq, Repr

/-- A `GOLD_INVOICE_TOTALS` row. -/
structure GoldTotalRow where
  invoice_id : String
  invoice_date : String
  subtotal : Rat
  tax : Rat
  total : Rat
  reviewed_by : Option String
  reviewed_timestamp : Option Nat
  notes : String
deriving DecidableEq, Repr

/-- A row of `RECONCILE_RESULTS_ITEMS` / `RECONCILE_RESULTS_TOTALS`. -/
structure ReconRow where
  invoice_id : String
  review_status : String
  last_reconciled_timestamp : Int
  reviewed_by : Option String
  reviewed_timestamp : Option Nat
  notes : String
deriving DecidableEq, Repr

/-- The warehouse state seen by the apps: the two bronze sources, the two
gold tables and the two reconciliation tables. -/
structure DB where
  transactItems : List ItemRow
  transactTotals : List TotalRow
  docaiItems : List ItemRow
  docaiTotals : List TotalRow
  goldItems : List GoldItemRow
  goldTotals : List GoldTotalRow
  reconcileItems : List ReconRow
  reconcileTotals : List ReconRow
deriving DecidableEq, Repr

/-! ## Bronze Store Accessor (`load_bronze_data`, sis_enhanced_invoice_app.py 92-104)

The Python function builds `bronze_data = {}` and assigns the four keys only
when `invoice_id` is truthy; on any query exception it reports an error and
returns `{}`.  The dict is modelled as a record of `Option` datasets, `none`
standing for an absent key; `storeOk = false` models a raising store read. -/

/-- The dict returned by `load_bronze_data`: each field is `some rows` when
the corresponding key was assigned, `none` when the key is absent. -/
structure BronzeData where
  transact_items : Option (List ItemRow)
  transact_totals : Option (List TotalRow)
  docai_items : Option (List ItemRow)
  docai_totals : Option (List TotalRow)
deriving DecidableEq, Repr

/-- The empty dict `{}`. -/
def emptyBronzeData : BronzeData := ⟨none, none, none, none⟩

/-- `load_bronze_data(invoice_id)`: four per-invoice bronze reads, keyed dict;
empty `invoice_id` skips the reads, a failing store read is caught and the
empty dict returned. -/
def load_bronze_data (storeOk : Bool) (db : DB) (invoice_id : String) : BronzeData :=
  if invoice_id ≠ "" then
    if storeOk then
      { transact_items := some (db.transactItems.filter (fun r => r.invoice_id == invoice_id))
        transact_totals := some (db.transactTotals.filter (fun r => r.invoice_id == invoice_id))
        docai_items := some (db.docaiItems.filter (fun r => r.invoice_id == invoice_id))
        docai_totals := some (db.docaiTotals.filter (fun r => r.invoice_id == invoice_id)) }
    else emptyBronzeData
  else emptyBronzeData

/-! ## Metrics Aggregator (`get_invoice_reconciliation_metrics`, 106-158)

The SQL query aggregates over `TRANSACT_TOTALS tt`, so every count and sum
ranges over bronze-transactional rows; gold presence enters only through
`EXISTS` subqueries. -/

/-- `EXISTS (SELECT 1 FROM GOLD_INVOICE_TOTALS git WHERE git.invoice_id = ...)`. -/
def existsGoldTotals (db : DB) (inv : String) : Bool :=
  db.goldTotals.any (fun g => g.invoice_id == inv)

/-- `EXISTS (SELECT 1 FROM GOLD_INVOICE_ITEMS gii WHERE gii.invoice_id = ...)`. -/
def existsGoldItems (db : DB) (inv : String) : Bool :=
  db.goldItems.any (fun g => g.invoice_id == inv)

/-- Gold-totals existence restricted to `reviewed_by = 'Auto-reconciled'`. -/
def existsGoldTotalsAuto (db : DB) (inv : String) : Bool :=
  db.goldTotals.any (fun g => g.invoice_id == inv && g.reviewed_by == some "Auto-reconciled")

/-- Gold-items existence restricted to `reviewed_by = 'Auto-reconciled'`. -/
def existsGoldItemsAuto (db : DB) (inv : String) : Bool :=
  db.goldItems.any (fun g => g.invoice_id == inv && g.reviewed_by == some "Auto-reconciled")

/-- The distinct invoice ids of a totals table, in first-occurrence order. -/
def distinctInvoiceIds (rows : List TotalRow) : List String :=
  (rows.map (fun r => r.invoice_id)).dedup

/-- `COUNT(DISTINCT tt.invoice_id)` over `TRANSACT_TOTALS`. -/
def total_invoice_count (db : DB) : Nat :=
  (distinctInvoiceIds db.transactTotals).length

/-- `SUM(tt.total)` over `TRANSACT_TOTALS` (empty sum is the query's NULL,
mapped to 0 by `row[...] or 0`). -/
def grand_total_amount (db : DB) : Rat :=
  (db.transactTotals.map (fun r => r.total)).sum

/-- `COUNT(DISTINCT CASE WHEN EXISTS gold-totals AND EXISTS gold-items THEN
tt.invoice_id END)`: distinct `TRANSACT_TOTALS` invoice ids present in both
gold tables. -/
def reconciled_invoice_count (db : DB) : Nat :=
  ((distinctInvoiceIds db.transactTotals).filter
    (fun inv => existsGoldTotals db inv && existsGoldItems db inv)).length

/-- Same count with both gold `EXISTS` restricted to
`reviewed_by = 'Auto-reconciled'`. -/
def auto_reconciled_invoice_count (db : DB) : Nat :=
  ((distinctInvoiceIds db.transactTotals).filter
    (fun inv => existsGoldTotalsAuto db inv && existsGoldItemsAuto db inv)).length

/-- `SUM(CASE WHEN EXISTS both THEN tt.total ELSE 0 END)`. -/
def total_reconciled_amount (db : DB) : Rat :=
  (db.transactTotals.map
    (fun r => if existsGoldTotals db r.invoice_id && existsGoldItems db r.invoice_id
              then r.total else 0)).sum

/-- The metrics dict built by `get_invoice_reconciliation_metrics`. -/
structure ReconMetrics where
  total_invoice_count : Nat
  grand_total_amount : Rat
  reconciled_invoice_count : Nat
  total_reconciled_amount : Rat
  reconciled_invoice_ratio : Rat
  reconciled_amount_ratio : Rat
  count_auto_reconciled : Nat
deriving DecidableEq, Repr

/-- `get_invoice_reconciliation_metrics`: the aggregate row plus the two
Python-side guarded divisions (`... if total_invoices > 0 else 0.0`,
`... if grand_total != 0 else 0.0`). -/
def get_invoice_reconciliation_metrics (db : DB) : ReconMetrics :=
  let total_invoices := total_invoice_count db
  let grand_total := grand_total_amount db
  let reconciled_invoices := reconciled_invoice_count db
  let total_reconciled := total_reconciled_amount db
  { total_invoice_count := total_invoices
    grand_total_amount := grand_total
    reconciled_invoice_count := reconciled_invoices
    total_reconciled_amount := total_reconciled
    reconciled_invoice_ratio :=
      if total_invoices > 0 then (reconciled_invoices : Rat) / (total_invoices : Rat) else 0
    reconciled_amount_ratio :=
      if grand_total ≠ 0 then total_reconciled / grand_total else 0
    count_auto_reconciled := auto_reconciled_invoice_count db }

/-- The reading of `reconciled_invoice_count` in the specification's words:
the number of distinct invoice ids present in both the gold-items and
gold-totals tables (not restricted to `TRANSACT_TOTALS`).  Stated for
comparison with the source's aggregate. -/
def distinctGoldBothCount (db : DB) : Nat :=
  ((db.goldTotals.map (fun g => g.invoice_id)).dedup.filter
    (fun inv => existsGoldItems db inv)).length

/-! ## Gold Record Writer (`show_reconciliation`, submission branch, 534-662)

Both accept buttons flow through one submission block: validate the chosen
source's session datasets, then delete-and-insert the gold items and totals
(stamping reviewer, timestamp and notes on every inserted row) and update
both reconciliation tables' review status to `Reviewed`.  Session datasets
are the dataframes the page stored while rendering (an empty dataframe is an
empty list). -/

/-- Which accept button was pressed. -/
inductive SubmitSource
  | docai
  | manual
deriving DecidableEq, Repr

/-- The session-state dataframes the submission block reads. -/
structure SessionData where
  docai_items : List ItemRow
  docai_totals : List TotalRow
  edited_transact_items : List ItemRow
  edited_transact_totals : List TotalRow
deriving DecidableEq, Repr

/-- The line items of the chosen source (`gold_items_df`). -/
def chosenItems : SubmitSource → SessionData → List ItemRow
  | .docai, s => s.docai_items
  | .manual, s => s.edited_transact_items

/-- The totals of the chosen source (`gold_totals_df`). -/
def chosenTotals : SubmitSource → SessionData → List TotalRow
  | .docai, s => s.docai_totals
  | .manual, s => s.edited_transact_totals

/-- One inserted `GOLD_INVOICE_ITEMS` row: the item's columns with
`INVOICE_ID` overwritten by the selected invoice and `REVIEWED_BY`,
`REVIEWED_TIMESTAMP`, `NOTES` stamped. -/
def stampItem (inv user : String) (ts : Nat) (notes : String) (r : ItemRow) : GoldItemRow :=
  { invoice_id := inv
    product_name := r.product_name
    quantity := r.quantity
    unit_price := r.unit_price
    total_price := r.total_price
    reviewed_by := some user
    reviewed_timestamp := some ts
    notes := notes }

/-- One inserted `GOLD_INVOICE_TOTALS` row, stamped the same way. -/
def stampTotal (inv user : String) (ts : Nat) (notes : String) (r : TotalRow) : GoldTotalRow :=
  { invoice_id := inv
    invoice_date := r.invoice_date
    subtotal := r.subtotal
    tax := r.tax
    total := r.total
    reviewed_by := some user
    reviewed_timestamp := some ts
    notes := notes }

/-- The `UPDATE RECONCILE_RESULTS_* SET REVIEW_STATUS = 'Reviewed', ...
WHERE INVOICE_ID = inv` statement over one reconciliation table. -/
def markReviewed (inv user : String) (ts : Nat) (notes : String)
    (rows : List ReconRow) : List ReconRow :=
  rows.map (fun r =>
    if r.invoice_id == inv then
      { r with review_status := "Reviewed", reviewed_by := some user,
               reviewed_timestamp := some ts, notes := notes }
    else r)

/-- The validated commit: `DELETE FROM GOLD_* WHERE INVOICE_ID = inv` then
row-by-row `INSERT` of the stamped rows, for items and totals, followed by
the two review-status updates. -/
def commitGold (items : List ItemRow) (totals : List TotalRow) (inv user : String)
    (ts : Nat) (notes : String) (db : DB) : DB :=
  { db with
    goldItems := db.goldItems.filter (fun g => g.invoice_id != inv)
      ++ items.map (stampItem inv user ts notes)
    goldTotals := db.goldTotals.filter (fun g => g.invoice_id != inv)
      ++ totals.map (stampTotal inv user ts notes)
    reconcileItems := markReviewed inv user ts notes db.reconcileItems
    reconcileTotals := markReviewed inv user ts notes db.reconcileTotals }

/-- The submission block: the emptiness validation of the chosen source's
session dataframes, then the commit.  Returns the new warehouse state and
the user-visible messages (the `st.warning` text on a rejected accept). -/
def submitReview (src : SubmitSource) (s : SessionData) (inv user : String)
    (ts : Nat) (notes : String) (db : DB) : DB × List String :=
  if (chosenItems src s).isEmpty then
    (db, ["No item data to submit."])
  else if (chosenTotals src s).isEmpty then
    (db, ["No total data to submit."])
  else
    (commitGold (chosenItems src s) (chosenTotals src s) inv user ts notes db,
     ["Submitting...",
      "Successfully saved corrected items",
      "Successfully saved corrected totals",
      "Successfully updated review status"])

/-! ## Validation app (`sis_docai_validation_app.py`)

`validate_invoice_procedure` (134-162) forwards each review decision to the
stored procedure `SP_VALIDATE_INVOICE` together with the decision's status;
the press of the validate / reject / save-draft buttons picks the status
(570-591). -/

/-- Which validation-form button was pressed. -/
inductive ValidationAction
  | validate_btn
  | reject_btn
  | save_draft_btn
deriving DecidableEq, Repr

/-- The status the UI passes for each button (lines 574-580). -/
def validationStatusFor : ValidationAction → String
  | .validate_btn => "VALIDATED"
  | .reject_btn => "REJECTED"
  | .save_draft_btn => "PENDING"

/-- A recorded validation decision. -/
structure ValidationRecord where
  invoice_no : String
  validated_by : String
  validation_status : String
deriving DecidableEq, Repr

/-- Modelled from the spec: the stored procedure `SP_VALIDATE_INVOICE` called
by `validate_invoice_procedure` is created by the quickstart's setup SQL,
which is not among the repository's source files; per the specification the
status write "is part of the same logical operation and must not be skipped
on any accept/reject path", so the procedure is modelled as recording the
passed validation status for the invoice. -/
def sp_validate_invoice (inv validated_by status : String)
    (log : List ValidationRecord) : List ValidationRecord :=
  log ++ [⟨inv, validated_by, status⟩]

/-- `validate_invoice_procedure`: builds the `CALL SP_VALIDATE_INVOICE(...)`
with the decision's status and runs it. -/
def validate_invoice_procedure (a : ValidationAction) (inv validated_by : String)
    (log : List ValidationRecord) : List ValidationRecord :=
  sp_validate_invoice inv validated_by (validationStatusFor a) log

/-! ## Example data used to instantiate theorems on concrete inputs -/

/-- A concrete bronze line item. -/
def itemEx : ItemRow :=
  { invoice_id := "INV-1", product_name := "Widget", quantity := 2,
    unit_price := 5, total_price := 10 }

/-- A concrete bronze totals row. -/
def totalEx : TotalRow :=
  { invoice_id := "INV-1", invoice_date := "2024-01-01", subtotal := 9,
    tax := 1, total := 10 }

/-- A session whose four dataframes are loaded and non-empty. -/
def sessEx : SessionData := ⟨[itemEx], [totalEx], [itemEx], [totalEx]⟩

/-- A session whose item dataframes are empty. -/
def sessEmptyItems : SessionData := ⟨[], [totalEx], [], [totalEx]⟩

/-- A session with items but empty totals dataframes. -/
def sessEmptyTotals : SessionData := ⟨[itemEx], [], [itemEx], []⟩

/-- A concrete pending reconciliation row. -/
def reconEx : ReconRow :=
  { invoice_id := "INV-1", review_status := "Pending Review",
    last_reconciled_timestamp := 10, reviewed_by := none,
    reviewed_timestamp := none, notes := "" }

/-- A concrete warehouse state with one pending invoice and no gold rows. -/
def dbEx : DB :=
  { transactItems := [itemEx], transactTotals := [totalEx],
    docaiItems := [itemEx], docaiTotals := [totalEx],
    goldItems := [], goldTotals := [],
    reconcileItems := [reconEx], reconcileTotals := [reconEx] }

/-- The completely empty warehouse state. -/
def dbEmpty : DB := ⟨[], [], [], [], [], [], [], []⟩

/-! ## Helper lemmas about delete-then-insert -/

/-- Rows surviving `DELETE ... WHERE key = inv` never match `inv`. -/
theorem filter_beq_filter_bne {α : Type} (key : α → String) (inv : String) (l : List α) :
    (l.filter (fun a => key a != inv)).filter (fun a => key a == inv) = [] := by
  induction l with
  | nil => rfl
  | cons a t ih =>
    by_cases h : key a = inv
    · simp [List.filter_cons, h, ih]
    · simp [List.filter_cons, h, ih]

/-- After a delete of `inv` followed by inserts that all carry `inv`, the
rows matching `inv` are exactly the inserted ones. -/
theorem filter_beq_append_inserted {α : Type} (key : α → String) (inv : String)
    (old new : List α) (hnew : ∀ a ∈ new, key a = inv) :
    ((old.filter (fun a => key a != inv)) ++ new).filter (fun a => key a == inv) = new := by
  rw [List.filter_append, filter_beq_filter_bne key inv old, List.nil_append]
  induction new with
  | nil => rfl
  | cons a t ih =>
    have ha : key a = inv := hnew a (List.mem_cons_self a t)
    rw [List.filter_cons]
    simp only [ha, beq_self_eq_true, if_pos]
    rw [ih (fun b hb => hnew b (List.mem_cons_of_mem a hb))]

/-- The gold-items rows of a commit that match the committed invoice are
exactly the stamped inserted rows. -/
theorem commitGold_items_for (items : List ItemRow) (totals : List TotalRow)
    (inv user : String) (ts : Nat) (notes : String) (db : DB) :
    (commitGold items totals inv user ts notes db).goldItems.filter
        (fun g => g.invoice_id == inv)
      = items.map (stampItem inv user ts notes) := by
  have h : (commitGold items totals inv user ts notes db).goldItems
      = db.goldItems.filter (fun g => g.invoice_id != inv)
        ++ items.map (stampItem inv user ts notes) := rfl
  rw [h]
  exact filter_beq_append_inserted (fun g : GoldItemRow => g.invoice_id) inv _ _
    (fun a ha => by
      obtain ⟨r, _, rfl⟩ := List.mem_map.mp ha
      rfl)

/-- The gold-totals rows of a commit that match the committed invoice are
exactly the stamped inserted rows. -/
theorem commitGold_totals_for (items : List ItemRow) (totals : List TotalRow)
    (inv user : String) (ts : Nat) (notes : String) (db : DB) :
    (commitGold items totals inv user ts notes db).goldTotals.filter
        (fun g => g.invoice_id == inv)
      = totals.map (stampTotal inv user ts notes) := by
  have h : (commitGold items totals inv user ts notes db).goldTotals
      = db.goldTotals.filter (fun g => g.invoice_id != inv)
        ++ totals.map (stampTotal inv user ts notes) := rfl
  rw [h]
  exact filter_beq_append_inserted (fun g : GoldTotalRow => g.invoice_id) inv _ _
    (fun a ha => by
      obtain ⟨r, _, rfl⟩ := List.mem_map.mp ha
      rfl)

/-- Every gold-items row after a commit is a pre-existing row not matching
the invoice, or a freshly stamped one. -/
theorem mem_commitGold_goldItems {items : List ItemRow} {totals : List TotalRow}
    {inv user : String} {ts : Nat} {notes : String} {db : DB} {g : GoldItemRow}
    (hg : g ∈ (commitGold items totals inv user ts notes db).goldItems) :
    (g ∈ db.goldItems ∧ g.invoice_id ≠ inv)
      ∨ (g.invoice_id = inv ∧ g.reviewed_by = some user
          ∧ g.reviewed_timestamp = some ts) := by
  have hg' : g ∈ db.goldItems.filter (fun a => a.invoice_id != inv)
      ++ items.map (stampItem inv user ts notes) := hg
  rcases List.mem_append.mp hg' with h | h
  · have hmem := List.mem_filter.mp h
    refine Or.inl ⟨hmem.1, ?_⟩
    simpa using hmem.2
  · obtain ⟨r, _, rfl⟩ := List.mem_map.mp h
    exact Or.inr ⟨rfl, rfl, rfl⟩

/-- Every gold-totals row after a commit is a pre-existing row not matching
the invoice, or a freshly stamped one. -/
theorem mem_commitGold_goldTotals {items : List ItemRow} {totals : List TotalRow}
    {inv user : String} {ts : Nat} {notes : String} {db : DB} {g : GoldTotalRow}
    (hg : g ∈ (commitGold items totals inv user ts notes db).goldTotals) :
    (g ∈ db.goldTotals ∧ g.invoice_id ≠ inv)
      ∨ (g.invoice_id = inv ∧ g.reviewed_by = some user
          ∧ g.reviewed_timestamp = some ts) := by
  have hg' : g ∈ db.goldTotals.filter (fun a => a.invoice_id != inv)
      ++ totals.map (stampTotal inv user ts notes) := hg
  rcases List.mem_append.mp hg' with h | h
  · have hmem := List.mem_filter.mp h
    refine Or.inl ⟨hmem.1, ?_⟩
    simpa using hmem.2
  · obtain ⟨r, _, rfl⟩ := List.mem_map.mp h
    exact Or.inr ⟨rfl, rfl, rfl⟩

/-- After the status update, every reconciliation row of the committed
invoice reads `Reviewed`. -/
theorem mem_markReviewed {inv user : String} {ts : Nat} {notes : String}
    {rows : List ReconRow} {r : ReconRow} (hr : r ∈ markReviewed inv user ts notes rows) :
    r.invoice_id = inv → r.review_status = "Reviewed" := by
  obtain ⟨x, _, rfl⟩ := List.mem_map.mp hr
  by_cases h : x.invoice_id = inv
  · have hb : (x.invoice_id == inv) = true := by simp [h]
    simp [hb]
  · have hb : (x.invoice_id == inv) = false := by simp [h]
    simp only [hb, Bool.false_eq_true, if_false]
    intro hc
    exact absurd hc h

/-- A valid submission reduces to the commit. -/
theorem submitReview_valid (src : SubmitSource) (s : SessionData)
    (inv user : String) (ts : Nat) (notes : String) (db : DB)
    (hi : (chosenItems src s).isEmpty = false)
    (ht : (chosenTotals src s).isEmpty = false) :
    submitReview src s inv user ts notes db
      = (commitGold (chosenItems src s) (chosenTotals src s) inv user ts notes db,
         ["Submitting...",
          "Successfully saved corrected items",
          "Successfully saved corrected totals",
          "Successfully updated review status"]) := by
  simp [submitReview, hi, ht]

/-- C1: a gold commit performs a full replace (delete all gold rows for the
invoice, then insert the accepted stamped rows) in both gold tables, so
committing the same accepted item/total set for the same invoice twice in
succession leaves the gold-layer row count for that invoice unchanged, with
`reviewed_timestamp` equal to the second commit's time on every gold row of
that invoice. -/
theorem gold_commit_full_replace_idempotent
    (src : SubmitSource) (s : SessionData) (inv user : String) (ts1 ts2 : Nat)
    (notes : String) (db : DB)
    (hi : (chosenItems src s).isEmpty = false)
    (ht : (chosenTotals src s).isEmpty = false) :
    ((submitReview src s inv user ts1 notes db).1).goldItems
        = db.goldItems.filter (fun g => g.invoice_id != inv)
          ++ (chosenItems src s).map (stampItem inv user ts1 notes)
  ∧ ((submitReview src s inv user ts1 notes db).1).goldTotals
        = db.goldTotals.filter (fun g => g.invoice_id != inv)
          ++ (chosenTotals src s).map (stampTotal inv user ts1 notes)
  ∧ (((submitReview src s inv user ts2 notes
        ((submitReview src s inv user ts1 notes db).1)).1).goldItems.filter
        (fun g => g.invoice_id == inv)).length
      = (((submitReview src s inv user ts1 notes db).1).goldItems.filter
        (fun g => g.invoice_id == inv)).length
  ∧ (((submitReview src s inv user ts2 notes
        ((submitReview src s inv user ts1 notes db).1)).1).goldTotals.filter
        (fun g => g.invoice_id == inv)).length
      = (((submitReview src s inv user ts1 notes db).1).goldTotals.filter
        (fun g => g.invoice_id == inv)).length
  ∧ (∀ g ∈ ((submitReview src s inv user ts2 notes
        ((submitReview src s inv user ts1 notes db).1)).1).goldItems,
        g.invoice_id = inv → g.reviewed_timestamp = some ts2)
  ∧ (∀ g ∈ ((submitReview src s inv user ts2 notes
        ((submitReview src s inv user ts1 notes db).1)).1).goldTotals,
        g.invoice_id = inv → g.reviewed_timestamp = some ts2) := by
  have key : ∀ (ts : Nat) (d : DB),
      (submitReview src s inv user ts notes d).1
        = commitGold (chosenItems src s) (chosenTotals src s) inv user ts notes d :=
    fun ts d => by rw [submitReview_valid src s inv user ts notes d hi ht]
  simp only [key]
  refine ⟨rfl, rfl, ?_, ?_, ?_, ?_⟩
  · rw [commitGold_items_for, commitGold_items_for]
    simp [List.length_map]
  · rw [commitGold_totals_for, commitGold_totals_for]
    simp [List.length_map]
  · intro g hg heq
    rcases mem_commitGold_goldItems hg with ⟨_, hne⟩ | ⟨_, _, hts⟩
    · exact absurd heq hne
    · exact hts
  · intro g hg heq
    rcases mem_commitGold_goldTotals hg with ⟨_, hne⟩ | ⟨_, _, hts⟩
    · exact absurd heq hne
    · exact hts

/-- Witness for C1 at a concrete double commit: the per-invoice gold-items
row count after the second commit equals the count after the first. -/
theorem gold_commit_full_replace_idempotent_witness :
    (((submitReview SubmitSource.docai sessEx "INV-1" "alice" 2 ""
        ((submitReview SubmitSource.docai sessEx "INV-1" "alice" 1 "" dbEx).1)).1).goldItems.filter
        (fun g => g.invoice_id == "INV-1")).length
      = (((submitReview SubmitSource.docai sessEx "INV-1" "alice" 1 "" dbEx).1).goldItems.filter
        (fun g => g.invoice_id == "INV-1")).length :=
  (gold_commit_full_replace_idempotent SubmitSource.docai sessEx "INV-1" "alice"
    1 2 "" dbEx (by decide) (by decide)).2.2.1

/-- C2: on every accept path (DocAI source or manually edited source), once
the gold items and totals are written the review status of the invoice in
both reconciliation tables reads `Reviewed`; and the validation app's
explicit reject flows through `validate_invoice_procedure`, which always
passes the decision's status — `REJECTED` for the reject button — to the
(spec-modelled) stored procedure, so the status write is never skipped. -/
theorem review_status_updated_on_accept_and_reject
    (src : SubmitSource) (s : SessionData) (inv user : String) (ts : Nat)
    (notes : String) (db : DB)
    (hi : (chosenItems src s).isEmpty = false)
    (ht : (chosenTotals src s).isEmpty = false) :
    (∀ r ∈ ((submitReview src s inv user ts notes db).1).reconcileItems,
        r.invoice_id = inv → r.review_status = "Reviewed")
  ∧ (∀ r ∈ ((submitReview src s inv user ts notes db).1).reconcileTotals,
        r.invoice_id = inv → r.review_status = "Reviewed")
  ∧ (∀ (a : ValidationAction) (vinv vuser : String) (log : List ValidationRecord),
        ValidationRecord.mk vinv vuser (validationStatusFor a)
          ∈ validate_invoice_procedure a vinv vuser log)
  ∧ validationStatusFor ValidationAction.reject_btn = "REJECTED" := by
  have h1 := submitReview_valid src s inv user ts notes db hi ht
  rw [h1]
  refine ⟨?_, ?_, ?_, rfl⟩
  · intro r hr
    exact mem_markReviewed hr
  · intro r hr
    exact mem_markReviewed hr
  · intro a vinv vuser log
    simp [validate_invoice_procedure, sp_validate_invoice]

/-- Witness for C2 at a concrete accept: the reconciliation-items row of the
committed invoice reads `Reviewed`, and the reject button's status is
`REJECTED`. -/
theorem review_status_updated_witness :
    ({ reconEx with
        review_status := "Reviewed"
        reviewed_by := some "alice"
        reviewed_timestamp := some 7
        notes := "" } : ReconRow)
        ∈ ((submitReview SubmitSource.manual sessEx "INV-1" "alice" 7 "" dbEx).1).reconcileItems
  ∧ validationStatusFor ValidationAction.reject_btn = "REJECTED" :=
  ⟨by decide,
   (review_status_updated_on_accept_and_reject SubmitSource.manual sessEx
      "INV-1" "alice" 7 "" dbEx (by decide) (by decide)).2.2.2⟩

/-- C3: an accept whose chosen source has an empty line-item set is rejected
with `No item data to submit.`, an accept with items but empty totals is
rejected with `No total data to submit.`, and in both cases the warehouse —
in particular the prior gold state — is returned unchanged. -/
theorem empty_accept_rejected_without_mutation
    (src : SubmitSource) (s : SessionData) (inv user : String) (ts : Nat)
    (notes : String) (db : DB) :
    ((chosenItems src s).isEmpty = true →
        submitReview src s inv user ts notes db = (db, ["No item data to submit."]))
  ∧ ((chosenItems src s).isEmpty = false → (chosenTotals src s).isEmpty = true →
        submitReview src s inv user ts notes db = (db, ["No total data to submit."])) := by
  constructor
  · intro h
    simp [submitReview, h]
  · intro hi ht
    simp [submitReview, hi, ht]

/-- Witness for C3: a concrete DocAI accept with no items is rejected with
the item message and leaves the warehouse unchanged. -/
theorem empty_accept_rejected_witness :
    submitReview SubmitSource.docai sessEmptyItems "INV-1" "alice" 1 "" dbEx
      = (dbEx, ["No item data to submit."]) :=
  (empty_accept_rejected_without_mutation SubmitSource.docai sessEmptyItems
    "INV-1" "alice" 1 "" dbEx).1 rfl

/-- C4: every gold row present after a submission either predates it or was
inserted by it carrying the (non-null) reviewer identity and review
timestamp — no gold write is anonymous or untimed. -/
theorem gold_rows_carry_reviewer_and_timestamp
    (src : SubmitSource) (s : SessionData) (inv user : String) (ts : Nat)
    (notes : String) (db : DB) :
    (∀ g ∈ ((submitReview src s inv user ts notes db).1).goldItems,
        g ∈ db.goldItems ∨ (g.reviewed_by = some user ∧ g.reviewed_timestamp = some ts))
  ∧ (∀ g ∈ ((submitReview src s inv user ts notes db).1).goldTotals,
        g ∈ db.goldTotals ∨ (g.reviewed_by = some user ∧ g.reviewed_timestamp = some ts)) := by
  by_cases hi : (chosenItems src s).isEmpty
  · constructor <;> · intro g hg; simp [submitReview, hi] at hg; exact Or.inl hg
  · by_cases ht : (chosenTotals src s).isEmpty
    · constructor <;>
        · intro g hg
          simp [submitReview, eq_false_of_ne_true hi, ht] at hg
          exact Or.inl hg
    · have h1 := submitReview_valid src s inv user ts notes db
        (eq_false_of_ne_true hi) (eq_false_of_ne_true ht)
      rw [h1]
      constructor
      · intro g hg
        rcases mem_commitGold_goldItems hg with ⟨hmem, _⟩ | ⟨_, hby, hts⟩
        · exact Or.inl hmem
        · exact Or.inr ⟨hby, hts⟩
      · intro g hg
        rcases mem_commitGold_goldTotals hg with ⟨hmem, _⟩ | ⟨_, hby, hts⟩
        · exact Or.inl hmem
        · exact Or.inr ⟨hby, hts⟩

/-- Witness for C4: the stamped gold row of a concrete commit indeed carries
reviewer `alice` and timestamp 5. -/
theorem gold_rows_carry_reviewer_witness :
    stampItem "INV-1" "alice" 5 "" itemEx
        ∈ ((submitReview SubmitSource.docai sessEx "INV-1" "alice" 5 "" dbEx).1).goldItems
  ∧ (stampItem "INV-1" "alice" 5 "" itemEx ∈ dbEx.goldItems
      ∨ ((stampItem "INV-1" "alice" 5 "" itemEx).reviewed_by = some "alice"
          ∧ (stampItem "INV-1" "alice" 5 "" itemEx).reviewed_timestamp = some 5)) :=
  ⟨by decide,
   (gold_rows_carry_reviewer_and_timestamp SubmitSource.docai sessEx "INV-1"
      "alice" 5 "" dbEx).1 _ (by decide)⟩

/-- C5: the Metrics Aggregator never divides by zero: the invoice-count
ratio is the quotient exactly when `total_invoice_count > 0` and 0
otherwise, the amount ratio is the quotient exactly when the grand total is
nonzero and 0 otherwise, and with no bronze data at all the total invoice
count and both ratios are 0. -/
theorem metrics_ratios_guard_division (db : DB) :
    ((get_invoice_reconciliation_metrics db).reconciled_invoice_ratio
        = if total_invoice_count db > 0
          then (reconciled_invoice_count db : Rat) / (total_invoice_count db : Rat)
          else 0)
  ∧ ((get_invoice_reconciliation_metrics db).reconciled_amount_ratio
        = if grand_total_amount db ≠ 0
          then total_reconciled_amount db / grand_total_amount db
          else 0)
  ∧ (db.transactTotals = [] ∧ db.transactItems = [] ∧ db.docaiItems = []
        ∧ db.docaiTotals = [] →
        (get_invoice_reconciliation_metrics db).total_invoice_count = 0
      ∧ (get_invoice_reconciliation_metrics db).reconciled_invoice_ratio = 0
      ∧ (get_invoice_reconciliation_metrics db).reconciled_amount_ratio = 0) := by
  refine ⟨rfl, rfl, ?_⟩
  rintro ⟨h1, -, -, -⟩
  refine ⟨?_, ?_, ?_⟩ <;>
    simp [get_invoice_reconciliation_metrics, total_invoice_count,
      reconciled_invoice_count, total_reconciled_amount, grand_total_amount,
      distinctInvoiceIds, h1]

/-- Witness for C5 on the empty warehouse: the total invoice count and both
ratios are 0. -/
theorem metrics_ratios_guard_division_witness :
    (get_invoice_reconciliation_metrics dbEmpty).total_invoice_count = 0
  ∧ (get_invoice_reconciliation_metrics dbEmpty).reconciled_invoice_ratio = 0
  ∧ (get_invoice_reconciliation_metrics dbEmpty).reconciled_amount_ratio = 0 :=
  (metrics_ratios_guard_division dbEmpty).2.2 ⟨rfl, rfl, rfl, rfl⟩

/-! ## C6 and C7 -/

/-- Filtering with a stronger predicate keeps at most as many rows. -/
theorem length_filter_mono {α : Type} (l : List α) (p q : α → Bool)
    (h : ∀ a, p a = true → q a = true) :
    (l.filter p).length ≤ (l.filter q).length := by
  induction l with
  | nil => simp
  | cons a t ih =>
    cases hp : p a with
    | true =>
      have hq : q a = true := h a hp
      simp only [List.filter_cons, hp, hq, if_true, List.length_cons]
      exact Nat.succ_le_succ ih
    | false =>
      cases hq : q a with
      | true =>
        simp only [List.filter_cons, hp, hq, Bool.false_eq_true, if_false, if_true,
          List.length_cons]
        exact Nat.le_trans ih (Nat.le_succ _)
      | false =>
        simp only [List.filter_cons, hp, hq, Bool.false_eq_true, if_false]
        exact ih

/-- Auto-reconciled gold-totals existence implies plain gold-totals
existence. -/
theorem existsGoldTotalsAuto_imp (db : DB) (inv : String) :
    existsGoldTotalsAuto db inv = true → existsGoldTotals db inv = true := by
  simp only [existsGoldTotalsAuto, existsGoldTotals, List.any_eq_true, Bool.and_eq_true]
  rintro ⟨g, hg, h1, -⟩
  exact ⟨g, hg, h1⟩

/-- Auto-reconciled gold-items existence implies plain gold-items
existence. -/
theorem existsGoldItemsAuto_imp (db : DB) (inv : String) :
    existsGoldItemsAuto db inv = true → existsGoldItems db inv = true := by
  simp only [existsGoldItemsAuto, existsGoldItems, List.any_eq_true, Bool.and_eq_true]
  rintro ⟨g, hg, h1, -⟩
  exact ⟨g, hg, h1⟩

/-- An auto-reconciled gold item row for an invoice absent from
`TRANSACT_TOTALS`. -/
def goldItemA : GoldItemRow :=
  { invoice_id := "INV-A", product_name := "Widget", quantity := 1,
    unit_price := 2, total_price := 2, reviewed_by := some "alice",
    reviewed_timestamp := some 1, notes := "" }

/-- The matching gold totals row. -/
def goldTotalA : GoldTotalRow :=
  { invoice_id := "INV-A", invoice_date := "2024-01-01", subtotal := 2,
    tax := 0, total := 2, reviewed_by := some "alice",
    reviewed_timestamp := some 1, notes := "" }

/-- A warehouse whose only data is a gold row-set for an invoice that has no
`TRANSACT_TOTALS` row. -/
def dbGoldOnly : DB :=
  { transactItems := [], transactTotals := [], docaiItems := [], docaiTotals := [],
    goldItems := [goldItemA], goldTotals := [goldTotalA],
    reconcileItems := [], reconcileTotals := [] }

/-- C6 counterexample: on a warehouse holding a gold row-set for invoice
`INV-A` but no `TRANSACT_TOTALS` row, the aggregate's
`reconciled_invoice_count` is 0 while the number of distinct invoice ids
present in both gold tables is 1 — the claim's equality fails. -/
theorem reconciled_count_not_gold_distinct_cex :
    reconciled_invoice_count dbGoldOnly ≠ distinctGoldBothCount dbGoldOnly := by
  decide

/-- C6 (amended): `total_invoice_count` is the number of distinct
`TRANSACT_TOTALS` invoice ids, `reconciled_invoice_count` is the number of
distinct `TRANSACT_TOTALS` invoice ids present in both gold tables (not the
number of ids present in both gold tables), and
`auto_reconciled_invoice_count ≤ reconciled_invoice_count ≤
total_invoice_count`. -/
theorem metrics_counts_amended (db : DB) :
    total_invoice_count db = (db.transactTotals.map (fun r => r.invoice_id)).dedup.length
  ∧ reconciled_invoice_count db
      = ((db.transactTotals.map (fun r => r.invoice_id)).dedup.filter
          (fun inv => existsGoldTotals db inv && existsGoldItems db inv)).length
  ∧ auto_reconciled_invoice_count db ≤ reconciled_invoice_count db
  ∧ reconciled_invoice_count db ≤ total_invoice_count db := by
  refine ⟨rfl, rfl, ?_, ?_⟩
  · apply length_filter_mono
    intro a ha
    rw [Bool.and_eq_true] at ha ⊢
    exact ⟨existsGoldTotalsAuto_imp db a ha.1, existsGoldItemsAuto_imp db a ha.2⟩
  · exact List.length_filter_le _ _

/-- C7 counterexample: called with an empty invoice id, the Bronze Store
Accessor's dict contains none of the four datasets — in particular the
transactional-items key is absent rather than an empty dataset, so the
claim's "returns empty sets for all four" fails. -/
theorem load_bronze_empty_id_cex :
    ¬ ((load_bronze_data true dbEx "").transact_items = some []
       ∧ (load_bronze_data true dbEx "").transact_totals = some []
       ∧ (load_bronze_data true dbEx "").docai_items = some []
       ∧ (load_bronze_data true dbEx "").docai_totals = some []) := by
  decide

/-- C7 (amended): given an absent/empty invoice id the accessor returns the
empty dict (no datasets at all, which the caller treats as no data) and
never raises; on any read failure it reports a non-fatal message and
likewise returns the empty dict; and given a non-empty invoice id with a
healthy store it returns the four per-invoice datasets. -/
theorem load_bronze_data_amended (storeOk : Bool) (db : DB) (inv : String) :
    load_bronze_data storeOk db "" = emptyBronzeData
  ∧ load_bronze_data false db inv = emptyBronzeData
  ∧ (inv ≠ "" →
      load_bronze_data true db inv
        = { transact_items := some (db.transactItems.filter (fun r => r.invoice_id == inv))
            transact_totals := some (db.transactTotals.filter (fun r => r.invoice_id == inv))
            docai_items := some (db.docaiItems.filter (fun r => r.invoice_id == inv))
            docai_totals := some (db.docaiTotals.filter (fun r => r.invoice_id == inv)) }) := by
  refine ⟨by simp [load_bronze_data], ?_, ?_⟩
  · by_cases h : inv = "" <;> simp [load_bronze_data, h]
  · intro h
    simp [load_bronze_data, h]

/-- Witness for amended C7: on a concrete store and invoice id the four
datasets come back filtered to that invoice. -/
theorem load_bronze_data_amended_witness :
    load_bronze_data true dbEx "INV-1"
      = { transact_items := some [itemEx]
          transact_totals := some [totalEx]
          docai_items := some [itemEx]
          docai_totals := some [totalEx] } :=
  ((load_bronze_data_amended true dbEx "INV-1").2.2 (by decide)).trans (by decide)

/-! ## AI Insight Adapter (`ai_fraud_risk_analysis`, cortex_enhanced_app.py 70-168)

The adapter calls the completion service, splits the response on `|` with
`split('|', 2)`, and on a three-part response returns the parsed record
(`float(parts[1])` may fail, falling through); on any other shape, or a
failed float parse, it returns the statistical fallback computed from the
invoice's z-score, with the raw response in `analysis`.  The string
primitives (`split`, `strip`, `float`) are modelled structurally over
character lists so that they evaluate in the kernel. -/

/-- Splitting a character list on a separator (Python `str.split(sep)`
without a maxsplit). -/
def splitOnSep (sep : Char) : List Char → List (List Char)
  | [] => [[]]
  | c :: cs =>
    match splitOnSep sep cs with
    | [] => [[c]]
    | r :: rs => if c = sep then [] :: r :: rs else (c :: r) :: rs

/-- Rejoining with the separator, for the tail kept whole by a maxsplit. -/
def joinWithSep (sep : Char) : List (List Char) → List Char
  | [] => []
  | [x] => x
  | x :: xs => x ++ sep :: joinWithSep sep xs

/-- Python `response.split('|', 2)`: at most three parts, the third keeping
any further separators. -/
def splitBarMax2 (s : String) : List String :=
  match splitOnSep '|' s.toList with
  | [] => [s]
  | [a] => [String.mk a]
  | [a, b] => [String.mk a, String.mk b]
  | a :: b :: rest => [String.mk a, String.mk b, String.mk (joinWithSep '|' rest)]

/-- Python `str.strip()`: whitespace removed from both ends. -/
def stripString (s : String) : String :=
  String.mk (((s.toList.dropWhile Char.isWhitespace).reverse.dropWhile
    Char.isWhitespace).reverse)

/-- A non-empty all-digit run as a number. -/
def parseDigits : List Char → Option Nat
  | [] => none
  | cs =>
    if cs.all Char.isDigit then
      some (cs.foldl (fun acc c => acc * 10 + (c.toNat - 48)) 0)
    else none

/-- Model of Python `float()` on the adapter's strings: an optional sign,
digits, optionally a dot and fraction digits; anything else is the
`ValueError` the adapter catches, modelled as `none`. -/
def parseFloat (s : String) : Option Rat :=
  let signBody : Rat × List Char :=
    match s.toList with
    | '-' :: rest => (-1, rest)
    | '+' :: rest => (1, rest)
    | cs => (1, cs)
  match splitOnSep '.' signBody.2 with
  | [w] => (parseDigits w).map (fun n => signBody.1 * (n : Rat))
  | [w, f] =>
    match parseDigits w, parseDigits f with
    | some n, some m =>
        some (signBody.1 * ((n : Rat) + (m : Rat) / ((10 : Rat) ^ f.length)))
    | _, _ => none
  | _ => none

/-- The parsed fraud-analysis record (`risk_level`, `risk_score`,
`analysis` keys of the returned dict). -/
structure FraudResult where
  risk_level : String
  risk_score : Rat
  analysis : String
deriving DecidableEq, Repr

/-- `z_score = abs(row['Z_SCORE']) if pd.notna(row['Z_SCORE']) else 0`;
`none` models a NaN z-score. -/
def fraudZScore (zRaw : Option Rat) : Rat :=
  match zRaw with
  | some z => |z|
  | none => 0

/-- The statistical fallback: `HIGH` above z-score 3, `MEDIUM` above 2,
else `LOW`; score `min(1.0, z_score/3.0)`; the raw response kept in
`analysis`. -/
def fraudFallback (z : Rat) (ai_response : String) : FraudResult :=
  { risk_level := if z > 3 then "HIGH" else if z > 2 then "MEDIUM" else "LOW"
    risk_score := min 1 (z / 3)
    analysis := ai_response }

/-- The response handling of `ai_fraud_risk_analysis`: a well-formed
three-part `|`-delimited response with a parseable score is returned
stripped; every other response yields the statistical fallback. -/
def ai_fraud_risk_analysis (zRaw : Option Rat) (ai_response : String) : FraudResult :=
  let z := fraudZScore zRaw
  match splitBarMax2 ai_response with
  | [p0, p1, p2] =>
    match parseFloat (stripString p1) with
    | some sc => { risk_level := stripString p0, risk_score := sc, analysis := stripString p2 }
    | none => fraudFallback z ai_response
  | _ => fraudFallback z ai_response

/-- C8 counterexample: on a malformed response (no `|` structure, not JSON)
for an invoice whose z-score is 9, the fallback's `risk_level` is `HIGH`
and its `risk_score` is 1 — the claim's fixed `LOW` / 0 fallback shape
fails. -/
theorem fraud_fallback_not_low_cex :
    ¬ ((ai_fraud_risk_analysis (some 9) "not a structured response").risk_level = "LOW"
       ∧ (ai_fraud_risk_analysis (some 9) "not a structured response").risk_score = 0) := by
  decide

/-- C8 (amended): the fraud adapter is total (never raises) and on any
response that is not a well-formed three-part `|`-delimited tuple — or whose
score part does not parse as a number — it returns the statistical fallback,
which carries the raw response text in `analysis`, rates `LOW` exactly when
the invoice's z-score is at most 2, and scores `min(1, z/3)` (so `LOW`/0
only for small z-scores, not as a fixed shape). -/
theorem fraud_analysis_fallback_amended (zRaw : Option Rat) (response : String) :
    ((splitBarMax2 response).length ≠ 3 →
        ai_fraud_risk_analysis zRaw response
          = fraudFallback (fraudZScore zRaw) response)
  ∧ (∀ p0 p1 p2, splitBarMax2 response = [p0, p1, p2] →
        parseFloat (stripString p1) = none →
        ai_fraud_risk_analysis zRaw response
          = fraudFallback (fraudZScore zRaw) response)
  ∧ (fraudFallback (fraudZScore zRaw) response).analysis = response
  ∧ (fraudZScore zRaw ≤ 2 →
        (fraudFallback (fraudZScore zRaw) response).risk_level = "LOW")
  ∧ (fraudFallback (fraudZScore zRaw) response).risk_score
      = min 1 (fraudZScore zRaw / 3) := by
  refine ⟨?_, ?_, rfl, ?_, rfl⟩
  · intro h
    rcases h3 : splitBarMax2 response with - | ⟨p0, - | ⟨p1, - | ⟨p2, - | ⟨p3, rest⟩⟩⟩⟩ <;>
      simp [ai_fraud_risk_analysis, h3] at h ⊢
  · intro p0 p1 p2 h3 hp
    simp [ai_fraud_risk_analysis, h3, hp]
  · intro h
    have h2 : ¬ (fraudZScore zRaw > 2) := not_lt.mpr h
    have h3 : ¬ (fraudZScore zRaw > 3) := not_lt.mpr (h.trans (by norm_num))
    simp [fraudFallback, h2, h3]

/-- Witness for amended C8: a concrete malformed response degrades to the
statistical fallback. -/
theorem fraud_analysis_fallback_amended_witness :
    ai_fraud_risk_analysis (some 9) "garbage response"
      = fraudFallback (fraudZScore (some 9)) "garbage response" :=
  (fraud_analysis_fallback_amended (some 9) "garbage response").1 (by decide)

/-! ## Reconciliation Comparator queries (`load_reconcile_data`, 62-90, and
`get_pending_validations`, sis_docai_validation_app.py 94-122)

`ORDER BY` is modelled as an insertion sort with a boolean comparator. -/

/-- Insert into a sorted list, keeping the comparator's order. -/
def insertSortedBy {α : Type} (le : α → α → Bool) (x : α) : List α → List α
  | [] => [x]
  | y :: ys => if le x y then x :: y :: ys else y :: insertSortedBy le x ys

/-- Insertion sort by a boolean comparator. -/
def sortBy {α : Type} (le : α → α → Bool) : List α → List α
  | [] => []
  | x :: xs => insertSortedBy le x (sortBy le xs)

/-- Membership is preserved by the insertion step. -/
theorem mem_insertSortedBy {α : Type} (le : α → α → Bool) (x : α) (l : List α) (y : α) :
    y ∈ insertSortedBy le x l ↔ y = x ∨ y ∈ l := by
  induction l with
  | nil => simp [insertSortedBy]
  | cons a t ih =>
    by_cases h : le x a = true
    · simp [insertSortedBy, h]
    · simp only [insertSortedBy, h, Bool.false_eq_true, if_false, List.mem_cons, ih]
      tauto

/-- Membership is preserved by the sort. -/
theorem mem_sortBy {α : Type} (le : α → α → Bool) (l : List α) (y : α) :
    y ∈ sortBy le l ↔ y ∈ l := by
  induction l with
  | nil => simp [sortBy]
  | cons a t ih => simp [sortBy, mem_insertSortedBy, ih]

/-- Inserting a fresh element keeps the list duplicate-free. -/
theorem nodup_insertSortedBy {α : Type} (le : α → α → Bool) (x : α) (l : List α)
    (hx : x ∉ l) (h : l.Nodup) : (insertSortedBy le x l).Nodup := by
  induction l with
  | nil => simp [insertSortedBy]
  | cons a t ih =>
    rw [List.nodup_cons] at h
    rw [List.mem_cons, not_or] at hx
    by_cases hle : le x a = true
    · simp only [insertSortedBy, hle, if_true]
      rw [List.nodup_cons, List.nodup_cons]
      refine ⟨?_, h.1, h.2⟩
      rw [List.mem_cons, not_or]
      exact ⟨hx.1, hx.2⟩
    · simp only [insertSortedBy, hle, Bool.false_eq_true, if_false]
      rw [List.nodup_cons]
      refine ⟨?_, ih hx.2 h.2⟩
      rw [mem_insertSortedBy, not_or]
      exact ⟨fun he => hx.1 he.symm, h.1⟩

/-- Sorting a duplicate-free list keeps it duplicate-free. -/
theorem nodup_sortBy {α : Type} (le : α → α → Bool) (l : List α)
    (h : l.Nodup) : (sortBy le l).Nodup := by
  induction l with
  | nil => simp [sortBy]
  | cons a t ih =>
    rw [List.nodup_cons] at h
    exact nodup_insertSortedBy le a (sortBy le t)
      (fun hm => h.1 ((mem_sortBy le t a).mp hm)) (ih h.2)

/-- The insertion step keeps the list pairwise ordered, for a total and
transitive comparator. -/
theorem pairwise_insertSortedBy {α : Type} (le : α → α → Bool)
    (htot : ∀ a b, le a b = true ∨ le b a = true)
    (htrans : ∀ a b c, le a b = true → le b c = true → le a c = true)
    (x : α) (l : List α) (h : l.Pairwise (fun a b => le a b = true)) :
    (insertSortedBy le x l).Pairwise (fun a b => le a b = true) := by
  induction l with
  | nil => simp [insertSortedBy]
  | cons a t ih =>
    rw [List.pairwise_cons] at h
    by_cases hle : le x a = true
    · simp only [insertSortedBy, hle, if_true]
      rw [List.pairwise_cons]
      refine ⟨?_, ?_⟩
      · intro b hb
        rcases List.mem_cons.mp hb with rfl | hbt
        · exact hle
        · exact htrans x a b hle (h.1 b hbt)
      · rw [List.pairwise_cons]
        exact h
    · have hax : le a x = true := (htot x a).resolve_left hle
      simp only [insertSortedBy, hle, Bool.false_eq_true, if_false]
      rw [List.pairwise_cons]
      refine ⟨?_, ih h.2⟩
      intro b hb
      rcases (mem_insertSortedBy le x t b).mp hb with rfl | hbt
      · exact hax
      · exact h.1 b hbt

/-- The sort is pairwise ordered, for a total and transitive comparator. -/
theorem pairwise_sortBy {α : Type} (le : α → α → Bool)
    (htot : ∀ a b, le a b = true ∨ le b a = true)
    (htrans : ∀ a b c, le a b = true → le b c = true → le a c = true)
    (l : List α) : (sortBy le l).Pairwise (fun a b => le a b = true) := by
  induction l with
  | nil => simp [sortBy]
  | cons a t ih => exact pairwise_insertSortedBy le htot htrans a (sortBy le t) ih

/-- The `SELECT DISTINCT invoice_id, review_status,
last_reconciled_timestamp` projection. -/
structure ReconKey where
  invoice_id : String
  review_status : String
  last_reconciled_timestamp : Int
deriving DecidableEq, Repr

/-- Projecting a reconciliation row onto the queried columns. -/
def reconKey (r : ReconRow) : ReconKey :=
  ⟨r.invoice_id, r.review_status, r.last_reconciled_timestamp⟩

/-- `WHERE review_status = f OR f = 'All'`. -/
def matchesFilter (f status : String) : Bool := status == f || f == "All"

/-- `ORDER BY last_reconciled_timestamp DESC`. -/
def tsDescLe (a b : ReconKey) : Bool :=
  decide (b.last_reconciled_timestamp ≤ a.last_reconciled_timestamp)

/-- `load_reconcile_data(status_filter)`: the filtered UNION (distinct) of
both reconciliation tables, ordered by `last_reconciled_timestamp DESC`
only. -/
def load_reconcile_data (f : String) (db : DB) : List ReconKey :=
  sortBy tsDescLe
    (((db.reconcileItems.filter (fun r => matchesFilter f r.review_status)).map reconKey
      ++ (db.reconcileTotals.filter (fun r => matchesFilter f r.review_status)).map
          reconKey).dedup)

/-- A row of the pending-validations view, restricted to the queried
columns. -/
structure PendingRow where
  invoice_no : String
  current_status : String
  last_modified : Int
deriving DecidableEq, Repr

/-- `CASE WHEN current_status = 'PENDING' THEN 1 ELSE 2 END`. -/
def pendingRank (r : PendingRow) : Nat :=
  if r.current_status == "PENDING" then 1 else 2

/-- The two-key `ORDER BY` of `get_pending_validations`: the PENDING rank
first, then `last_modified DESC`. -/
def pendingOrd (a b : PendingRow) : Bool :=
  decide (pendingRank a < pendingRank b)
    || (pendingRank a == pendingRank b && decide (b.last_modified ≤ a.last_modified))

/-- `get_pending_validations(status_filter)`: the filtered view rows,
PENDING rows first, then most recently modified first. -/
def get_pending_validations (f : String) (rows : List PendingRow) : List PendingRow :=
  sortBy pendingOrd (rows.filter (fun r => r.current_status == f || f == "All"))

/-- `tsDescLe` is total. -/
theorem tsDescLe_total (a b : ReconKey) : tsDescLe a b = true ∨ tsDescLe b a = true := by
  unfold tsDescLe
  rcases le_total b.last_reconciled_timestamp a.last_reconciled_timestamp with h | h
  · left
    exact decide_eq_true h
  · right
    exact decide_eq_true h

/-- `tsDescLe` is transitive. -/
theorem tsDescLe_trans (a b c : ReconKey)
    (h1 : tsDescLe a b = true) (h2 : tsDescLe b c = true) : tsDescLe a c = true := by
  unfold tsDescLe at *
  rw [decide_eq_true_eq] at *
  exact h2.trans h1

/-- `pendingOrd` is total. -/
theorem pendingOrd_total (a b : PendingRow) :
    pendingOrd a b = true ∨ pendingOrd b a = true := by
  unfold pendingOrd
  rcases Nat.lt_trichotomy (pendingRank a) (pendingRank b) with h | h | h
  · left
    simp [h]
  · rcases le_total b.last_modified a.last_modified with hm | hm
    · left
      simp [h, hm]
    · right
      simp [h.symm, hm]
  · right
    simp [h]

/-- `pendingOrd` is transitive. -/
theorem pendingOrd_trans (a b c : PendingRow)
    (h1 : pendingOrd a b = true) (h2 : pendingOrd b c = true) :
    pendingOrd a c = true := by
  unfold pendingOrd at *
  simp only [Bool.or_eq_true, Bool.and_eq_true, decide_eq_true_eq, beq_iff_eq] at *
  rcases h1 with h1 | ⟨h1e, h1m⟩ <;> rcases h2 with h2 | ⟨h2e, h2m⟩
  · exact Or.inl (h1.trans h2)
  · exact Or.inl (h2e ▸ h1)
  · exact Or.inl (h1e ▸ h2)
  · exact Or.inr ⟨h1e.trans h2e, h2m.trans h1m⟩

/-- The ordering `pendingOrd` guarantees between two rows it places in
order: the PENDING rank never decreases, and within a rank the
modification time never increases. -/
theorem pendingOrd_imp (a b : PendingRow) (h : pendingOrd a b = true) :
    pendingRank a ≤ pendingRank b
      ∧ (pendingRank a = pendingRank b → b.last_modified ≤ a.last_modified) := by
  unfold pendingOrd at h
  simp only [Bool.or_eq_true, Bool.and_eq_true, decide_eq_true_eq, beq_iff_eq] at h
  rcases h with h | ⟨he, hm⟩
  · exact ⟨Nat.le_of_lt h, fun hc => absurd hc (Nat.ne_of_lt h)⟩
  · exact ⟨he.le, fun _ => hm⟩

/-- A `Reviewed` reconciliation row touched later than a pending one. -/
def reconRowRev : ReconRow :=
  { invoice_id := "INV-A", review_status := "Reviewed",
    last_reconciled_timestamp := 10, reviewed_by := none,
    reviewed_timestamp := none, notes := "" }

/-- A `Pending Review` reconciliation row touched earlier. -/
def reconRowPend : ReconRow :=
  { invoice_id := "INV-B", review_status := "Pending Review",
    last_reconciled_timestamp := 5, reviewed_by := none,
    reviewed_timestamp := none, notes := "" }

/-- A warehouse whose items reconciliation table holds the two rows above. -/
def dbOrd : DB :=
  { transactItems := [], transactTotals := [], docaiItems := [], docaiTotals := [],
    goldItems := [], goldTotals := [],
    reconcileItems := [reconRowRev, reconRowPend], reconcileTotals := [] }

/-- C9 counterexample: with filter `All`, the query returns the `Reviewed`
row (touched at 10) before the `Pending Review` row (touched at 5): the
output is ordered purely by `last_reconciled_timestamp DESC`, so a
non-pending invoice precedes a pending one — the claim's Pending-first
ordering fails. -/
theorem reconcile_order_not_pending_first_cex :
    load_reconcile_data "All" dbOrd = [reconKey reconRowRev, reconKey reconRowPend]
  ∧ (reconKey reconRowPend).review_status = "Pending Review"
  ∧ (reconKey reconRowRev).review_status ≠ "Pending Review" := by
  decide

/-- C9 (amended): for every filter value the reconciliation query returns
exactly the distinct projected rows of either table matching the filter,
with no duplicates, ordered by `last_reconciled_timestamp` descending only
(no Pending-first precedence); the Pending-first-then-most-recent ordering
belongs to the validation app's `get_pending_validations`, whose output is
pairwise ordered by PENDING rank first and `last_modified` descending
within a rank. -/
theorem reconcile_query_membership_order_amended (f : String) (db : DB) :
    (∀ k, k ∈ load_reconcile_data f db ↔
        (((∃ r ∈ db.reconcileItems, reconKey r = k)
            ∨ (∃ r ∈ db.reconcileTotals, reconKey r = k))
          ∧ matchesFilter f k.review_status = true))
  ∧ (load_reconcile_data f db).Pairwise
      (fun a b => b.last_reconciled_timestamp ≤ a.last_reconciled_timestamp)
  ∧ (load_reconcile_data f db).Nodup
  ∧ (∀ rows : List PendingRow, (get_pending_validations f rows).Pairwise
      (fun a b => pendingRank a ≤ pendingRank b
        ∧ (pendingRank a = pendingRank b → b.last_modified ≤ a.last_modified))) := by
  refine ⟨?_, ?_, ?_, ?_⟩
  · intro k
    simp only [load_reconcile_data, mem_sortBy, List.mem_dedup, List.mem_append,
      List.mem_map, List.mem_filter]
    constructor
    · rintro (⟨r, ⟨hr, hm⟩, rfl⟩ | ⟨r, ⟨hr, hm⟩, rfl⟩)
      · exact ⟨Or.inl ⟨r, hr, rfl⟩, hm⟩
      · exact ⟨Or.inr ⟨r, hr, rfl⟩, hm⟩
    · rintro ⟨⟨r, hr, rfl⟩ | ⟨r, hr, rfl⟩, hm⟩
      · exact Or.inl ⟨r, ⟨hr, hm⟩, rfl⟩
      · exact Or.inr ⟨r, ⟨hr, hm⟩, rfl⟩
  · refine List.Pairwise.imp ?_
      (pairwise_sortBy tsDescLe tsDescLe_total tsDescLe_trans _)
    intro a b h
    exact of_decide_eq_true h
  · exact nodup_sortBy tsDescLe _ (List.nodup_dedup _)
  · intro rows
    refine List.Pairwise.imp ?_
      (pairwise_sortBy pendingOrd pendingOrd_total pendingOrd_trans _)
    intro a b h
    exact pendingOrd_imp a b h

/-- Witness for amended C9: on the concrete two-row warehouse with filter
`All`, the returned rows are exactly the two matching rows (here checked on
the pending one) in timestamp-descending order. -/
theorem reconcile_query_membership_witness :
    reconKey reconRowPend ∈ load_reconcile_data "All" dbOrd
  ∧ ((∃ r ∈ dbOrd.reconcileItems, reconKey r = reconKey reconRowPend)
      ∨ (∃ r ∈ dbOrd.reconcileTotals, reconKey r = reconKey reconRowPend))
  ∧ matchesFilter "All" (reconKey reconRowPend).review_status = true :=
  have h := ((reconcile_query_membership_order_amended "All" dbOrd).1
    (reconKey reconRowPend)).mp (by decide)
  ⟨by decide, h.1, h.2⟩

/-! ## PDF pager (`display_pdf_page` / `previous_pdf_page` /
`next_pdf_page`, sis_docai_validation_app.py 44-81)

Session state is the loaded document (`none` when no PDF is loaded, else its
page count) and the current page index (a Python `int`, hence `Int`). -/

/-- The pager's session state. -/
structure PdfViewState where
  pdf_doc : Option Nat
  pdf_page : Int
deriving DecidableEq, Repr

/-- `previous_pdf_page`: decrement when the index is positive. -/
def previous_pdf_page (s : PdfViewState) : PdfViewState :=
  if s.pdf_page > 0 then { s with pdf_page := s.pdf_page - 1 } else s

/-- `next_pdf_page`: increment when a document is loaded and the index is
below the last page. -/
def next_pdf_page (s : PdfViewState) : PdfViewState :=
  match s.pdf_doc with
  | some n => if s.pdf_page < (n : Int) - 1 then { s with pdf_page := s.pdf_page + 1 } else s
  | none => s

/-- `display_pdf_page`: warn when no document is loaded; reset an
out-of-range index to 0 (after an error message) before rendering page
`pdf_page`; the second component is the index of the page actually rendered
(`none` when no page could be accessed). -/
def display_pdf_page (s : PdfViewState) : PdfViewState × Option Int :=
  match s.pdf_doc with
  | none => (s, none)
  | some n =>
    if 0 ≤ s.pdf_page ∧ s.pdf_page < (n : Int) then
      (s, some s.pdf_page)
    else
      (⟨s.pdf_doc, 0⟩, if 0 < (n : Int) then some 0 else none)

/-- C10: for a loaded document with `n` pages and an in-range index `i`,
`previous_pdf_page` yields `max (i-1) 0` and `next_pdf_page` yields
`min (i+1) (n-1)`, so `0 ≤ index < n` is preserved by every navigation
step; and `display_pdf_page` resets any out-of-range index to 0 and renders
page 0 instead of failing. -/
theorem pdf_page_navigation_bounds (s : PdfViewState) (n : Nat)
    (hdoc : s.pdf_doc = some n) (h0 : 0 ≤ s.pdf_page) (hn : s.pdf_page < (n : Int)) :
    (previous_pdf_page s).pdf_page = max (s.pdf_page - 1) 0
  ∧ (next_pdf_page s).pdf_page = min (s.pdf_page + 1) ((n : Int) - 1)
  ∧ (0 ≤ (previous_pdf_page s).pdf_page ∧ (previous_pdf_page s).pdf_page < (n : Int))
  ∧ (0 ≤ (next_pdf_page s).pdf_page ∧ (next_pdf_page s).pdf_page < (n : Int))
  ∧ (∀ t : PdfViewState, t.pdf_doc = some n →
        ¬ (0 ≤ t.pdf_page ∧ t.pdf_page < (n : Int)) →
        (display_pdf_page t).1.pdf_page = 0 ∧ (display_pdf_page t).2 = some 0) := by
  obtain ⟨d, p⟩ := s
  replace hdoc : d = some n := hdoc
  subst hdoc
  replace h0 : 0 ≤ p := h0
  replace hn : p < (n : Int) := hn
  have hprev : (previous_pdf_page ⟨some n, p⟩).pdf_page = max (p - 1) 0 := by
    show (if p > 0 then (⟨some n, p - 1⟩ : PdfViewState) else ⟨some n, p⟩).pdf_page
        = max (p - 1) 0
    by_cases h : p > 0
    · rw [if_pos h]
      show p - 1 = max (p - 1) 0
      omega
    · rw [if_neg h]
      show p = max (p - 1) 0
      omega
  have hnext : (next_pdf_page ⟨some n, p⟩).pdf_page = min (p + 1) ((n : Int) - 1) := by
    show (if p < (n : Int) - 1 then (⟨some n, p + 1⟩ : PdfViewState) else ⟨some n, p⟩).pdf_page
        = min (p + 1) ((n : Int) - 1)
    by_cases h : p < (n : Int) - 1
    · rw [if_pos h]
      show p + 1 = min (p + 1) ((n : Int) - 1)
      omega
    · rw [if_neg h]
      show p = min (p + 1) ((n : Int) - 1)
      omega
  refine ⟨hprev, hnext, ⟨?_, ?_⟩, ⟨?_, ?_⟩, ?_⟩
  · rw [hprev]; omega
  · rw [hprev]; omega
  · rw [hnext]; omega
  · rw [hnext]; omega
  · intro t htdoc hout
    obtain ⟨td, tp⟩ := t
    replace htdoc : td = some n := htdoc
    subst htdoc
    replace hout : ¬ (0 ≤ tp ∧ tp < (n : Int)) := hout
    have e : display_pdf_page ⟨some n, tp⟩
        = (⟨some n, 0⟩, if 0 < (n : Int) then some 0 else none) := by
      show (if 0 ≤ tp ∧ tp < (n : Int)
              then ((⟨some n, tp⟩ : PdfViewState), some tp)
              else ((⟨some n, 0⟩ : PdfViewState), if 0 < (n : Int) then some 0 else none))
          = (⟨some n, 0⟩, if 0 < (n : Int) then some 0 else none)
      rw [if_neg hout]
    rw [e]
    have hpos : 0 < (n : Int) := by omega
    rw [if_pos hpos]
    exact ⟨rfl, rfl⟩

/-- Witness for C10 at a three-page document on page 1. -/
theorem pdf_page_navigation_bounds_witness :
    (previous_pdf_page ⟨some 3, 1⟩).pdf_page = max (1 - 1) 0
  ∧ (next_pdf_page ⟨some 3, 1⟩).pdf_page = min (1 + 1) ((3 : Int) - 1)
  ∧ (0 ≤ (previous_pdf_page ⟨some 3, 1⟩).pdf_page
      ∧ (previous_pdf_page ⟨some 3, 1⟩).pdf_page < (3 : Int))
  ∧ (0 ≤ (next_pdf_page ⟨some 3, 1⟩).pdf_page
      ∧ (next_pdf_page ⟨some 3, 1⟩).pdf_page < (3 : Int))
  ∧ (∀ t : PdfViewState, t.pdf_doc = some 3 →
        ¬ (0 ≤ t.pdf_page ∧ t.pdf_page < (3 : Int)) →
        (display_pdf_page t).1.pdf_page = 0 ∧ (display_pdf_page t).2 = some 0) :=
  pdf_page_navigation_bounds ⟨some 3, 1⟩ 3 rfl (by decide) (by decide)
